import Mathlib

/-!
# MangaDex chapter notifier: poll and announce

A shallow embedding of `fetchMangaUpdates` and `postMangaUpdates` from
`manga-chapter-updates.js`, with the two effects they consume made explicit:

* `axios.get` is an oracle telling, for the n-th request of a poll and the id
  it asks for, whether the `try` block raised or which `data` array came back;
* the Discord channel is an oracle telling, for the k-th `channel.send` of a
  call and the payload, whether the send resolved or rejected.

The global object `lastChapterIds` is threaded through as a value.
-/

namespace MangaUpdates

/-! ## Data -/

/-- One element of `response.data.data`: the chapter `id` and the two fields of
`attributes` the source reads. `none` is an absent or `null` field. -/
structure RawChapter where
  id : String
  title : Option String
  chapter : Option String
deriving DecidableEq, Repr

/-- What happens inside the `try` block for one manga id: either something is
thrown and the `catch` logs it (the request rejects, or a body without the
`data` array or without `attributes` on its first element makes the property
read throw), or `response.data.data` is read as an array of chapters. -/
inductive FeedResult where
  | raised
  | ok (data : List RawChapter)
deriving DecidableEq, Repr

/-- The object pushed onto `updates`. `chapterId` and `link` are missing from the
object pushed in the `else` branch, so reading them there gives `undefined`,
here `none`. -/
structure Update where
  mangaId : String
  title : String
  chapter : String
  chapterId : Option String
  link : Option String
deriving DecidableEq, Repr

/-- The operator `a || d` on a string field `a` that may be absent: the empty
string, `null` and `undefined` are falsy and give `d`. -/
def jsOr (a : Option String) (d : String) : String :=
  match a with
  | some s => if s = "" then d else s
  | none => d

/-- Interpolation of a possibly absent string inside a template literal. -/
def jsStr : Option String → String
  | some s => s
  | none => "undefined"

/-! ## fetchMangaUpdates -/

/-- The body of the `for` loop of `fetchMangaUpdates`, from the request number
`n` onwards, with `updates` the array built so far. -/
def fetchFrom (axiosGet : Nat → String → FeedResult) :
    Nat → List String → List Update → List Update
  | _, [], updates => updates
  | n, mangaId :: rest, updates =>
    match axiosGet n mangaId with
    | .raised => fetchFrom axiosGet (n + 1) rest updates
    | .ok [] =>
      fetchFrom axiosGet (n + 1) rest
        (updates ++ [{ mangaId := mangaId, title := "Unknown Title",
                       chapter := "No Chapters Found", chapterId := none, link := none }])
    | .ok (chapterData :: _) =>
      fetchFrom axiosGet (n + 1) rest
        (updates ++ [{ mangaId := mangaId,
                       title := jsOr chapterData.title "Unknown Title",
                       chapter := jsOr chapterData.chapter "Unknown Chapter",
                       chapterId := some chapterData.id,
                       link := some ("https://mangadex.org/chapter/" ++ chapterData.id) }])

/-- The function `fetchMangaUpdates`, with the tracked ids and the feed as arguments. -/
def fetchMangaUpdates (axiosGet : Nat → String → FeedResult)
    (trackedMangaIds : List String) : List Update :=
  fetchFrom axiosGet 0 trackedMangaIds []

/-! ## lastChapterIds -/

/-- The own properties of the object `lastChapterIds`, in insertion order. A key
is the `chapterId` used to index the object: `some id` for a chapter id and
`none` for the key an absent `chapterId` is coerced to. Chapter ids are
MangaDex identifiers (UUIDs), which never spell that key nor a member inherited
from `Object.prototype`, so own-property lookup decides `lastChapterIds[k]` on
them. A value is what was stored: a string, or `none` for `undefined`. -/
abbrev Seen := List (Option String × Option String)

/-- The read `lastChapterIds[k]`: the stored value, `undefined` (`none`) when
there is no such property. -/
def getProp : Seen → Option String → Option String
  | [], _ => none
  | (k', v) :: rest, k => if k' = k then v else getProp rest k

/-- The assignment `lastChapterIds[k] = v`: overwrite in place, or add at the end. -/
def setProp : Seen → Option String → Option String → Seen
  | [], k, v => [(k, v)]
  | (k', v') :: rest, k, v =>
    if k' = k then (k', v) :: rest else (k', v') :: setProp rest k v

/-- An item id counts as seen when the table maps it to itself, which is what
the filter of `postMangaUpdates` tests. -/
def inSeen (seen : Seen) (id : String) : Prop :=
  getProp seen (some id) = some id

instance (seen : Seen) (id : String) : Decidable (inSeen seen id) := by
  unfold inSeen; infer_instance

/-! ## postMangaUpdates -/

/-- One field of the status embed. -/
structure EmbedField where
  name : String
  value : String
  inline : Bool
deriving DecidableEq, Repr

/-- The argument of `channel.send`: a plain string, or `{ embeds: [embed] }`. -/
inductive Message where
  | content (text : String)
  | embed (title description : String) (color : Nat) (fields : List EmbedField)
deriving DecidableEq, Repr

/-- The string sent for one new update. -/
def updateMessage (update : Update) : Message :=
  .content ("**" ++ update.title ++ "** - Chapter " ++ update.chapter
    ++ "\nRead here: " ++ jsStr update.link)

/-- The embed sent when nothing is new: one field for every element of `updates`. -/
def statusEmbed (updates : List Update) : Message :=
  .embed "Manga Update Status" "All tracked mangas are up to date." 0x00ff00
    (updates.map fun update =>
      { name := update.title,
        value := "Chapter: " ++ update.chapter
          ++ "\n[View Manga](https://mangadex.org/title/" ++ update.mangaId ++ ")",
        inline := false })

/-- A resolved channel: whether the k-th `channel.send` of the call, with this
payload, resolves (`true`) or rejects (`false`). -/
abbrev Channel := Nat → Message → Bool

/-- One call of `channel.send`, as observed: the update it was made for (`none`
for the status embed), the payload, and whether it resolved. -/
structure Send where
  source : Option Update
  message : Message
  delivered : Bool
deriving DecidableEq, Repr

/-- What one call of `postMangaUpdates` leaves behind: the table, the calls of
`channel.send` in order, and whether the call ended by a rejection that left
the function (nothing in it catches one). -/
structure Outcome where
  lastChapterIds : Seen
  sends : List Send
  threw : Bool
deriving DecidableEq, Repr

/-- The filter predicate of `postMangaUpdates`. -/
def isNew (lastChapterIds : Seen) (isManual : Bool) (update : Update) : Bool :=
  isManual || getProp lastChapterIds update.chapterId != update.chapterId

/-- The loop `for (const update of newUpdates)`, from send number `k` onwards.
A rejected `await channel.send` leaves the loop and the function. -/
def postNew (channel : Channel) : Nat → List Update → Seen → List Send → Outcome
  | _, [], lastChapterIds, sends => ⟨lastChapterIds, sends, false⟩
  | k, update :: rest, lastChapterIds, sends =>
    if channel k (updateMessage update) then
      postNew channel (k + 1) rest
        (setProp lastChapterIds update.chapterId update.chapterId)
        (sends ++ [⟨some update, updateMessage update, true⟩])
    else
      ⟨lastChapterIds, sends ++ [⟨some update, updateMessage update, false⟩], true⟩

/-- The function `postMangaUpdates`. `channel` is the result of
`client.channels.fetch(channelId)`, `none` when it is falsy. -/
def postMangaUpdates (channel : Option Channel) (updates : List Update)
    (lastChapterIds : Seen) (isManual : Bool) : Outcome :=
  match channel with
  | none => ⟨lastChapterIds, [], false⟩
  | some channel =>
    let newUpdates := updates.filter (isNew lastChapterIds isManual)
    if newUpdates.length = 0 then
      let embed := statusEmbed updates
      ⟨lastChapterIds, [⟨none, embed, channel 0 embed⟩], !channel 0 embed⟩
    else
      postNew channel 0 newUpdates lastChapterIds []

/-- The payloads that reached the channel, in order. -/
def Outcome.emitted (o : Outcome) : List Message :=
  (o.sends.filter (·.delivered)).map (·.message)

/-- The send observed for an update whose message was delivered. -/
def deliveredSend (u : Update) : Send := ⟨some u, updateMessage u, true⟩

/-- The table after recording each of `updates` in turn. -/
def record (lastChapterIds : Seen) (updates : List Update) : Seen :=
  updates.foldl (fun seen update => setProp seen update.chapterId update.chapterId)
    lastChapterIds

/-- A channel on which every send resolves. -/
def alwaysDelivers : Channel := fun _ _ => true

/-- The record of scenario A: manga `m1`, chapter `c5`. -/
def fooUpdate : Update :=
  { mangaId := "m1", title := "Foo", chapter := "12", chapterId := some "c5",
    link := some "https://mangadex.org/chapter/c5" }

/-- The feed of scenario A: every request returns the chapter `c5` of `Foo`. -/
def fooFeed : Nat → String → FeedResult :=
  fun _ _ => .ok [{ id := "c5", title := some "Foo", chapter := some "12" }]

/-- A feed without chapters: every request returns an empty `data` array. -/
def emptyFeed : Nat → String → FeedResult := fun _ _ => .ok []

/-- The feed of scenario C: the request for `m1` raises, any other returns the
chapter `c9` of `Bar`. -/
def flakyFeed : Nat → String → FeedResult :=
  fun _ mangaId =>
    if mangaId = "m1" then .raised
    else .ok [{ id := "c9", title := some "Bar", chapter := some "7" }]

/-! ## Lemmas on the table -/

theorem record_nil (seen : Seen) : record seen [] = seen := rfl

theorem record_cons (seen : Seen) (u : Update) (us : List Update) :
    record seen (u :: us) = record (setProp seen u.chapterId u.chapterId) us := rfl

theorem record_append (seen : Seen) (us vs : List Update) :
    record seen (us ++ vs) = record (record seen us) vs := by
  simp [record, List.foldl_append]

/-- When every send resolves the loop runs to its end. -/
theorem postNew_of_delivers (channel : Channel) (h : ∀ k m, channel k m = true)
    (us : List Update) (k : Nat) (seen : Seen) (sends : List Send) :
    postNew channel k us seen sends
      = ⟨record seen us, sends ++ us.map deliveredSend, false⟩ := by
  induction us generalizing k seen sends with
  | nil => simp [postNew, record_nil]
  | cons u us ih =>
    simp [postNew, h, ih, record_cons, deliveredSend]

/-- The non-empty branch of `postMangaUpdates`. -/
theorem postMangaUpdates_new (channel : Channel) (updates : List Update) (seen : Seen)
    (isManual : Bool) (h : updates.filter (isNew seen isManual) ≠ []) :
    postMangaUpdates (some channel) updates seen isManual
      = postNew channel 0 (updates.filter (isNew seen isManual)) seen [] := by
  unfold postMangaUpdates
  simp only []
  rw [if_neg]
  intro h0
  exact h (List.length_eq_zero.mp h0)

/-- The array built so far is only ever extended. -/
theorem fetchFrom_acc (axiosGet : Nat → String → FeedResult) (ids : List String) (n : Nat)
    (updates : List Update) :
    fetchFrom axiosGet n ids updates = updates ++ fetchFrom axiosGet n ids [] := by
  induction ids generalizing n updates with
  | nil => simp [fetchFrom]
  | cons id rest ih =>
    unfold fetchFrom
    split
    · exact ih _ _
    · rw [ih (n + 1) (updates ++ _), ih (n + 1) ([] ++ _)]; simp
    · rw [ih (n + 1) (updates ++ _), ih (n + 1) ([] ++ _)]; simp

/-- Polling a list of ids in two parts. -/
theorem fetchFrom_append (axiosGet : Nat → String → FeedResult) (xs ys : List String)
    (n : Nat) (updates : List Update) :
    fetchFrom axiosGet n (xs ++ ys) updates
      = fetchFrom axiosGet (n + xs.length) ys (fetchFrom axiosGet n xs updates) := by
  induction xs generalizing n updates with
  | nil => simp [fetchFrom]
  | cons id rest ih =>
    have e : n + (id :: rest).length = n + 1 + rest.length := by simp; omega
    rw [e]
    rcases hg : axiosGet n id with _ | (_ | ⟨c, cs⟩) <;>
      simp only [List.cons_append, fetchFrom, hg] <;> exact ih _ _

/-- The ids of the records a poll returns, from request number `n` onwards. -/
theorem fetchFrom_mangaIds (axiosGet : Nat → String → FeedResult) (ids : List String)
    (n : Nat) :
    (fetchFrom axiosGet n ids []).map (·.mangaId)
      = ((ids.enumFrom n).filter fun p => decide (axiosGet p.1 p.2 ≠ .raised)).map (·.2) := by
  induction ids generalizing n with
  | nil => simp [fetchFrom]
  | cons id rest ih =>
    unfold fetchFrom
    split
    · next h => simp [List.enumFrom_cons, h, ih]
    · next h => rw [fetchFrom_acc]; simp [List.enumFrom_cons, h, ih]
    · next h => rw [fetchFrom_acc]; simp [List.enumFrom_cons, h, ih]

/-- C6: whatever each request does (return a body or raise), the manga ids of
the records `fetchMangaUpdates` returns are the tracked ids, in order, without
those whose request raised: a raising request drops its own id only, every
other id gives one record, and there are at most as many records as ids. -/
theorem fetchMangaUpdates_mangaIds (axiosGet : Nat → String → FeedResult)
    (trackedMangaIds : List String) :
    (fetchMangaUpdates axiosGet trackedMangaIds).map (·.mangaId)
      = ((trackedMangaIds.enum.filter
            fun p => decide (axiosGet p.1 p.2 ≠ .raised)).map (·.2))
    ∧ (fetchMangaUpdates axiosGet trackedMangaIds).length ≤ trackedMangaIds.length
    ∧ (fetchMangaUpdates axiosGet trackedMangaIds).length
      = (trackedMangaIds.enum.filter
            fun p => decide (axiosGet p.1 p.2 ≠ .raised)).length := by
  have h := fetchFrom_mangaIds axiosGet trackedMangaIds 0
  have hlen := congrArg List.length h
  simp only [List.length_map] at hlen
  refine ⟨h, ?_, hlen⟩
  unfold fetchMangaUpdates
  rw [hlen]
  calc ((trackedMangaIds.enumFrom 0).filter _).length
      ≤ (trackedMangaIds.enumFrom 0).length := List.length_filter_le _ _
    _ = trackedMangaIds.length := List.enumFrom_length

/-- Scenario C: the request for `m1` raises and `m2` has a chapter; the poll
returns the record of `m2` alone. -/
theorem fetchMangaUpdates_flaky :
    fetchMangaUpdates flakyFeed ["m1", "m2"]
      = [{ mangaId := "m2", title := "Bar", chapter := "7", chapterId := some "c9",
           link := some "https://mangadex.org/chapter/c9" }] := by
  decide

/-- C7: when the request for a tracked id returns an empty `data` array, the
record the poll gives for that id, at its place between the records of the
ids before and after it, has title `Unknown Title`, chapter
`No Chapters Found`, no chapter id and no link. -/
theorem fetchMangaUpdates_no_chapters (axiosGet : Nat → String → FeedResult)
    (pre : List String) (mangaId : String) (post : List String)
    (h : axiosGet pre.length mangaId = .ok []) :
    fetchMangaUpdates axiosGet (pre ++ mangaId :: post)
      = fetchMangaUpdates axiosGet pre
        ++ { mangaId := mangaId, title := "Unknown Title", chapter := "No Chapters Found",
             chapterId := none, link := none }
        :: fetchFrom axiosGet (pre.length + 1) post [] := by
  unfold fetchMangaUpdates
  rw [fetchFrom_append]
  simp only [Nat.zero_add]
  rw [fetchFrom, h]
  simp only []
  rw [fetchFrom_acc]
  simp

/-- A run of C7: a feed without chapters, polled for `m1` and `m2`. -/
theorem fetchMangaUpdates_no_chapters_witness :
    fetchMangaUpdates emptyFeed ["m1", "m2"]
      = [{ mangaId := "m1", title := "Unknown Title", chapter := "No Chapters Found",
           chapterId := none, link := none },
         { mangaId := "m2", title := "Unknown Title", chapter := "No Chapters Found",
           chapterId := none, link := none }] := by
  have h := fetchMangaUpdates_no_chapters emptyFeed ["m1"] "m2" [] rfl
  rw [show ["m1", "m2"] = ["m1"] ++ "m2" :: [] from rfl, h]
  decide

/-- C8: when the request for a tracked id returns at least one chapter, the
record the poll gives for that id is built from the first one: its chapter id
is the chapter's id, its link is `https://mangadex.org/chapter/` followed by
that id, its title is the chapter's title when that is present and not empty
and `Unknown Title` otherwise, its chapter is the chapter's number when that is
present and not empty and `Unknown Chapter` otherwise. -/
theorem fetchMangaUpdates_first_chapter (axiosGet : Nat → String → FeedResult)
    (pre : List String) (mangaId : String) (post : List String)
    (chapterData : RawChapter) (others : List RawChapter)
    (h : axiosGet pre.length mangaId = .ok (chapterData :: others)) :
    ∃ r : Update,
      fetchMangaUpdates axiosGet (pre ++ mangaId :: post)
        = fetchMangaUpdates axiosGet pre ++ r :: fetchFrom axiosGet (pre.length + 1) post []
      ∧ r.mangaId = mangaId
      ∧ r.chapterId = some chapterData.id
      ∧ r.link = some ("https://mangadex.org/chapter/" ++ chapterData.id)
      ∧ (∀ t, chapterData.title = some t → t ≠ "" → r.title = t)
      ∧ (chapterData.title = none ∨ chapterData.title = some "" → r.title = "Unknown Title")
      ∧ (∀ c, chapterData.chapter = some c → c ≠ "" → r.chapter = c)
      ∧ (chapterData.chapter = none ∨ chapterData.chapter = some "" →
          r.chapter = "Unknown Chapter") := by
  refine ⟨{ mangaId := mangaId,
            title := jsOr chapterData.title "Unknown Title",
            chapter := jsOr chapterData.chapter "Unknown Chapter",
            chapterId := some chapterData.id,
            link := some ("https://mangadex.org/chapter/" ++ chapterData.id) },
    ?_, rfl, rfl, rfl, ?_, ?_, ?_, ?_⟩
  · unfold fetchMangaUpdates
    rw [fetchFrom_append]
    simp only [Nat.zero_add]
    rw [fetchFrom, h]
    simp only []
    rw [fetchFrom_acc]
    simp
  · intro t ht hne
    simp [jsOr, ht, hne]
  · rintro (h' | h') <;> simp [jsOr, h']
  · intro c hc hne
    simp [jsOr, hc, hne]
  · rintro (h' | h') <;> simp [jsOr, h']

/-- Scenario A of C8: the feed returns the chapter `c5` of `Foo`, and the poll of
`m1` is the record announced in scenario A. -/
theorem fetchMangaUpdates_first_chapter_witness :
    fetchMangaUpdates fooFeed ["m1"] = [fooUpdate] := by
  obtain ⟨r, h1, h2, h3, h4, h5, -, h7, -⟩ :=
    fetchMangaUpdates_first_chapter fooFeed [] "m1" []
      { id := "c5", title := some "Foo", chapter := some "12" } [] rfl
  have e5 := h5 "Foo" rfl (by decide)
  have e7 := h7 "12" rfl (by decide)
  have hr : r = fooUpdate := by
    cases r
    simp only [fooUpdate] at *
    simp_all
  rw [show ["m1"] = [] ++ "m1" :: [] from rfl, h1, hr]
  decide

/-- The scheduled filter keeps the updates whose chapter id the table does not
map to itself. -/
theorem isNew_scheduled (seen : Seen) :
    isNew seen false = fun u => decide (getProp seen u.chapterId ≠ u.chapterId) := by
  funext u
  by_cases h : getProp seen u.chapterId = u.chapterId <;> simp [isNew, bne, h]

/-- C1: in a scheduled call (`isManual = false`) on a resolved channel whose sends
all resolve, when some record has an item id the table does not hold, the calls
of `channel.send` are exactly one per new record, in the order of the records,
each delivering the text `**title** - Chapter chapter` / `Read here: link`; the
status embed is not among the payloads, the new records are recorded, and the
call ends normally. -/
theorem postMangaUpdates_announces_new (channel : Channel) (updates : List Update)
    (seen : Seen) (hsend : ∀ k m, channel k m = true)
    (hnew : ∃ u ∈ updates, ∃ id, u.chapterId = some id ∧ ¬ inSeen seen id) :
    (postMangaUpdates (some channel) updates seen false).sends
      = (updates.filter fun u => decide (getProp seen u.chapterId ≠ u.chapterId)).map
          (fun u => ⟨some u,
            .content ("**" ++ u.title ++ "** - Chapter " ++ u.chapter
              ++ "\nRead here: " ++ jsStr u.link), true⟩)
    ∧ statusEmbed updates ∉ (postMangaUpdates (some channel) updates seen false).emitted
    ∧ (postMangaUpdates (some channel) updates seen false).lastChapterIds
      = record seen (updates.filter fun u => decide (getProp seen u.chapterId ≠ u.chapterId))
    ∧ (postMangaUpdates (some channel) updates seen false).threw = false := by
  have hne : updates.filter (isNew seen false) ≠ [] := by
    obtain ⟨u, hu, id, hid, hns⟩ := hnew
    intro h0
    have hmem : u ∈ updates.filter (isNew seen false) := by
      rw [List.mem_filter]
      refine ⟨hu, ?_⟩
      rw [isNew_scheduled]
      simp only [decide_eq_true_eq]
      rw [hid]
      exact hns
    rw [h0] at hmem
    simp at hmem
  rw [postMangaUpdates_new channel updates seen false hne,
    postNew_of_delivers channel hsend, isNew_scheduled]
  refine ⟨by simp [deliveredSend, updateMessage], ?_, rfl, rfl⟩
  intro hmem
  obtain ⟨s, hs, he⟩ := List.mem_map.mp hmem
  have hs' := (List.mem_filter.mp hs).1
  simp only [List.nil_append] at hs'
  obtain ⟨u, -, rfl⟩ := List.mem_map.mp hs'
  simp [deliveredSend, updateMessage, statusEmbed] at he

/-- Scenario A of C1: the single record `Foo`, chapter 12, item `c5`, against the
empty table gives the one message and the table that holds `c5`. -/
theorem postMangaUpdates_announces_new_witness :
    (postMangaUpdates (some alwaysDelivers) [fooUpdate] [] false).emitted
      = [.content "**Foo** - Chapter 12\nRead here: https://mangadex.org/chapter/c5"]
    ∧ (postMangaUpdates (some alwaysDelivers) [fooUpdate] [] false).lastChapterIds
      = [(some "c5", some "c5")]
    ∧ (postMangaUpdates (some alwaysDelivers) [fooUpdate] [] false).threw = false := by
  have h := postMangaUpdates_announces_new alwaysDelivers [fooUpdate] []
    (fun _ _ => rfl) ⟨fooUpdate, by simp, "c5", rfl, by decide⟩
  obtain ⟨h1, -, h3, h4⟩ := h
  refine ⟨?_, ?_, h4⟩
  · rw [Outcome.emitted, h1]; decide
  · rw [h3]; decide

end MangaUpdates
